import Mathlib

/-!
Verification of the streaming decompression pump in src/example/zcat/zcat.c.

The development embeds the decode() pump, the fail() reporter and the main()
glue as executable Lean functions. The wuffs library itself (the gzip
decoder, wuffs_base__io_buffer__compact, strerror) is external collaborator
code declared in the single-file wuffs header; those parts are modelled from
the spec's contracts and kept opaque (oracle parameters) or reconstructed
from the spec's words, as marked in the individual doc comments. Machine
integers of the C code (size_t cursors, ssize_t read results) are modelled
as Nat: all quantities involved are small non-negative counts and the C code
never relies on wrap-around.
-/

namespace Zcat

/-- Bytes are modelled as natural numbers (the value range plays no role in
any claim about the pump's control flow). -/
abbrev Byte := Nat

/-- One wuffs_base__io_buffer: a fixed-capacity byte array (data, whose
length is the capacity), the read and write cursors meta.ri and meta.wi, and
the end-of-input flag meta.closed. -/
structure IOBuffer where
  data : List Byte
  ri : Nat
  wi : Nat
  closed : Bool
deriving Repr, DecidableEq

/-- The pending region of a buffer: the bytes in positions [ri, wi). -/
def IOBuffer.pending (b : IOBuffer) : List Byte :=
  (b.data.take b.wi).drop b.ri

/-- Modelled from the spec: wuffs_base__io_buffer__compact lives in the wuffs
single-file header, which is not under src/. The spec's CompactionOperation
moves the pending bytes [ri, wi) down to offset 0, resets ri to 0, decreases
wi by the old ri and leaves the capacity unchanged (positions at and beyond
the moved pending region keep stale free-space content). -/
def IOBuffer.compact (b : IOBuffer) : IOBuffer :=
  { data := (b.data.drop b.ri).take (b.wi - b.ri) ++ b.data.drop (b.wi - b.ri),
    ri := 0,
    wi := b.wi - b.ri,
    closed := b.closed }

/-- A fresh zeroed buffer of the given capacity, as the global dst_buffer and
src_buffer arrays start out. -/
def IOBuffer.init (cap : Nat) : IOBuffer :=
  { data := List.replicate cap 0, ri := 0, wi := 0, closed := false }

/-- The outcomes of one wuffs decoder call that zcat.c distinguishes: the
empty status (ok), the suspensions short_read and short_write, and a fatal
error with an abstracted kind. The spec's DecodeSignal maps need-more-input
to shortRead, output-full to shortWrite, fatal-error(kind) to error kind, and
the remaining signal, progress, to the remaining status, ok. -/
inductive Status
  | ok
  | shortRead
  | shortWrite
  | error (kind : Nat)
deriving Repr, DecidableEq

/-- Modelled from the spec: one step of the external decoder (the spec's
section 6.1 contract; the wuffs gzip decoder is library code not under src/).
A step reports the bytes it produced into the destination free region, how
many pending source bytes it consumed, and its status. -/
structure DecStep where
  produced : List Byte
  consumed : Nat
  status : Status
deriving Repr, DecidableEq

/-- Result of one read(2) call on stdin: a byte sequence (empty meaning end
of input), or a failure carrying the errno value the C code inspects. -/
inductive ReadResult
  | bytes (bs : List Byte)
  | err (e : Nat)
deriving Repr, DecidableEq

/-- The errno value of an interrupted system call on Linux. -/
def EINTR : Nat := 4

/-- The external collaborators of the pump. dec is the decoder oracle, given
its call index, the destination free-region size, the pending source bytes
and the source closed flag; rd is the input source, given the read call index
and the offered byte count; wr is the output sink, given the write call index
and the offered byte count, answering how many bytes it accepts (a failed
write accepts none; zcat.c ignores the answer either way). Indexing oracles
by call count makes them arbitrary deterministic stateful collaborators. -/
structure Env where
  dec : Nat → Nat → List Byte → Bool → DecStep
  rd : Nat → Nat → ReadResult
  wr : Nat → Nat → Nat

/-- The contracts of the spec's sections 6.1, 6.2 and 6.3: a decoder step
produces at most the free-region size and consumes at most the pending
bytes; a read returns at most the offered count; a write accepts at most the
offered count. -/
def Env.Wf (env : Env) : Prop :=
  (∀ i f p c, (env.dec i f p c).produced.length ≤ f ∧
      (env.dec i f p c).consumed ≤ p.length) ∧
  (∀ i c bs, env.rd i c = ReadResult.bytes bs → bs.length ≤ c) ∧
  (∀ i c, env.wr i c ≤ c)

/-- The possible return values of decode(): NULL for success, strerror(errno)
for a failed read, a decoder status propagated by the final return z, and the
no-progress internal error string. -/
inductive Res
  | ok
  | readErr (e : Nat)
  | decErr (k : Nat)
  | noProgress
deriving Repr, DecidableEq

/-- The pump state: the two buffers plus call counters for the three oracles,
together with observation fields that record what the run did — out is the
byte sequence the sink actually accepted, totalProduced the concatenation of
everything the decoder produced, decCalls the (ri, wi) cursor pair of the
destination buffer at each decoder call, rdOffers the (wi, count) pair
describing the region offered to each read call, and statuses the sequence of
decoder statuses seen. -/
structure PumpState where
  src : IOBuffer
  dst : IOBuffer
  nDec : Nat
  nRd : Nat
  nWr : Nat
  out : List Byte
  totalProduced : List Byte
  decCalls : List (Nat × Nat)
  rdOffers : List (Nat × Nat)
  statuses : List Status
deriving Repr, DecidableEq

/-- The initial pump state of decode(): both buffers fresh, nothing recorded.
The default capacities in zcat.c are SRC_BUFFER_SIZE = DST_BUFFER_SIZE =
16 * 1024, overridable via the respective macros, so they are parameters. -/
def initState (scap dcap : Nat) : PumpState :=
  { src := IOBuffer.init scap, dst := IOBuffer.init dcap,
    nDec := 0, nRd := 0, nWr := 0, out := [], totalProduced := [],
    decCalls := [], rdOffers := [], statuses := [] }

/-- The state change of one decoder call (zcat.c lines 113-115): the produced
bytes are written into the destination free region starting at dst.wi, which
advances by their number; src.ri advances by the consumed count; the call is
recorded in the observation fields. -/
def applyDecStep (st : PumpState) (r : DecStep) : PumpState :=
  { st with
    src := { st.src with ri := st.src.ri + r.consumed },
    dst := { st.dst with
      data := st.dst.data.take st.dst.wi ++ r.produced ++
              st.dst.data.drop (st.dst.wi + r.produced.length),
      wi := st.dst.wi + r.produced.length },
    nDec := st.nDec + 1,
    totalProduced := st.totalProduced ++ r.produced,
    decCalls := st.decCalls ++ [(st.dst.ri, st.dst.wi)],
    statuses := st.statuses ++ [r.status] }

/-- The flush step (zcat.c lines 117-123): if the destination buffer has any
pending bytes, offer dst_buffer[0, wi) to stdout in one write call whose
return value is ignored, then mark the whole region consumed (ri := wi) and
compact the destination buffer. The sink receives only the bytes it accepted;
the rest are discarded by the unconditional ri := wi. -/
def flushDst (env : Env) (st : PumpState) : PumpState :=
  if st.dst.wi ≠ 0 then
    { st with
      out := st.out ++ (st.dst.data.take st.dst.wi).take (env.wr st.nWr st.dst.wi),
      nWr := st.nWr + 1,
      dst := IOBuffer.compact { st.dst with ri := st.dst.wi } }
  else st

/-- One iteration of the inner drain loop (zcat.c lines 112-123 up to the
status dispatch): call the decoder on the destination writer and the source
reader, then flush. Returns the decoder status alongside the new state. -/
def drainIter (env : Env) (st : PumpState) : Status × PumpState :=
  let r := env.dec st.nDec (st.dst.data.length - st.dst.wi) st.src.pending
      st.src.closed
  (r.status, flushDst env (applyDecStep st r))

/-- How the inner drain loop hands control back: broke is the break on
short_read (back to the refill loop), ret is a return from decode() with the
final state. -/
inductive InnerOut
  | broke (st : PumpState)
  | ret (r : Res) (st : PumpState)
deriving Repr, DecidableEq

/-- The state carried by an inner-loop outcome. -/
def InnerOut.state : InnerOut → PumpState
  | InnerOut.broke st => st
  | InnerOut.ret _ st => st

/-- The inner drain loop (zcat.c lines 112-131), fuel-indexed: short_read
breaks, short_write loops again, and any other status — the ok status or a
fatal error — is returned from decode() unmodified, terminating the whole
pump. Fuel exhaustion yields none (the C loop would still be running). -/
def innerLoop (env : Env) : Nat → PumpState → Option InnerOut
  | 0, _ => none
  | fuel + 1, st =>
    let p := drainIter env st
    match p.1 with
    | Status.shortRead => some (InnerOut.broke p.2)
    | Status.shortWrite => innerLoop env fuel p.2
    | Status.ok => some (InnerOut.ret Res.ok p.2)
    | Status.error k => some (InnerOut.ret (Res.decErr k) p.2)

/-- Bookkeeping common to every read call (zcat.c line 99): the call consumes
one read-oracle index, and the offered region — starting at src.wi, of length
capacity minus src.wi — is recorded. -/
def recordOffer (st : PumpState) : PumpState :=
  { st with
    nRd := st.nRd + 1,
    rdOffers := st.rdOffers ++ [(st.src.wi, st.src.data.length - st.src.wi)] }

/-- The effect of a successful read of bs on the source buffer (zcat.c lines
106-110): the bytes land at positions [wi, wi + n), wi advances by n, and a
zero-byte read sets the closed flag (and nothing else). -/
def applyRefill (st : PumpState) (bs : List Byte) : PumpState :=
  { st with
    src := { st.src with
      data := st.src.data.take st.src.wi ++ bs ++
              st.src.data.drop (st.src.wi + bs.length),
      wi := st.src.wi + bs.length,
      closed := if bs.length = 0 then true else st.src.closed } }

/-- The outer refill loop of decode() (zcat.c lines 97-138), fuel-indexed on
its iteration count (the inner loop gets its own fuel g). Per iteration: read
into the source buffer's free region; on errno EINTR retry immediately, on
any other errno return strerror(errno); otherwise apply the refill and run
the inner drain loop; when that breaks on short_read, compact the source
buffer and fail with the no-progress error if the compacted buffer is still
completely full, else continue. -/
def outerLoop (env : Env) : Nat → Nat → PumpState → Option (Res × PumpState)
  | 0, _, _ => none
  | fuel + 1, g, st =>
    match env.rd st.nRd (st.src.data.length - st.src.wi) with
    | ReadResult.err e =>
      if e = EINTR then outerLoop env fuel g (recordOffer st)
      else some (Res.readErr e, recordOffer st)
    | ReadResult.bytes bs =>
      match innerLoop env g (applyRefill (recordOffer st) bs) with
      | none => none
      | some (InnerOut.ret r st2) => some (r, st2)
      | some (InnerOut.broke st2) =>
        let st3 : PumpState := { st2 with src := st2.src.compact }
        if st3.src.wi = st3.src.data.length then some (Res.noProgress, st3)
        else outerLoop env fuel g st3

/-- The decode() pump of zcat.c (lines 76-139) from a fresh state, skipping
the wuffs version check (library code; it either fails before the loop ever
runs or has no further effect). -/
def decode (env : Env) (fuel g scap dcap : Nat) : Option (Res × PumpState) :=
  outerLoop env fuel g (initState scap dcap)

/-- strnlen from libc: the number of bytes before the first NUL, capped at
the second argument. -/
def strnlen : List Byte → Nat → Nat
  | [], _ => 0
  | _, 0 => 0
  | c :: rest, m + 1 => if c = 0 then 0 else strnlen rest m + 1

/-- The bytes fail() offers to stderr (zcat.c lines 141-146): the message
truncated by strnlen(msg, 4095), then one separate newline byte. -/
def failOutput (msg : List Byte) : List Byte :=
  msg.take (strnlen msg 4095) ++ [10]

/-- The exit code fail() returns. -/
def failStatus : Nat := 1

/-- main()'s result glue (zcat.c lines 154-155): given decode()'s returned
message (none for the NULL success), the pair of exit status and bytes
emitted on stderr is (0, nothing) on success and (fail's status, fail's
output) otherwise. -/
def mainRun (msg : Option (List Byte)) : Nat × List Byte :=
  match msg with
  | none => (0, [])
  | some m => (failStatus, failOutput m)

/-- The C string decode() returns for each result. NULL (none) for success;
the strings for a read failure and for a decoder status come from strerror
and from the wuffs status representation, both outside src/, so they are
abstract parameters here; the no-progress string is literal in zcat.c. -/
def resMessage (strerror statusStr : Nat → List Byte) : Res → Option (List Byte)
  | Res.ok => none
  | Res.readErr e => some (strerror e)
  | Res.decErr k => some (statusStr k)
  | Res.noProgress =>
      some (("internal error: no I/O progress possible".toList).map Char.toNat)

/-- Cursor sanity of one buffer: read cursor at most write cursor, write
cursor at most capacity. -/
def BufInv (b : IOBuffer) : Prop :=
  b.ri ≤ b.wi ∧ b.wi ≤ b.data.length

/-- The pump invariant that holds at every loop head: both capacities are
unchanged, the source cursors are sane, the destination buffer is empty, all
recorded decoder calls saw an empty destination buffer, and every recorded
read offer was exactly the free region of an in-bounds write cursor. -/
structure InvP (scap dcap : Nat) (st : PumpState) : Prop where
  srcLen : st.src.data.length = scap
  dstLen : st.dst.data.length = dcap
  srcRiWi : st.src.ri ≤ st.src.wi
  srcWiCap : st.src.wi ≤ scap
  dstRi : st.dst.ri = 0
  dstWi : st.dst.wi = 0
  decCallsZero : ∀ p ∈ st.decCalls, p = ((0 : Nat), (0 : Nat))
  rdOffersOk : ∀ q ∈ st.rdOffers, q.1 ≤ scap ∧ q.2 = scap - q.1

/-- The destination-side invariant that needs no contract assumption at all:
the destination buffer is empty and every recorded decoder call saw an empty
destination buffer. -/
def DInv (st : PumpState) : Prop :=
  st.dst.ri = 0 ∧ st.dst.wi = 0 ∧
  ∀ p ∈ st.decCalls, p = ((0 : Nat), (0 : Nat))

/-- Witness environment: a decoder that never consumes or produces and always
reports short_read, an input source that fills whatever it is offered, a sink
that accepts everything. Drives the pump into the no-progress failure. -/
def envW : Env :=
  { dec := fun _ _ _ _ => { produced := [], consumed := 0, status := Status.shortRead },
    rd := fun _ c => ReadResult.bytes (List.replicate c 1),
    wr := fun _ c => c }

/-- Environment for the partial-write scenario: the source supplies two bytes
once, the decoder consumes them and produces the two bytes 7 and 8 in its
first call and reports the ok status, and the sink accepts only one byte per
write call. The decoder and read oracles clip to the regions they are given,
so the environment satisfies every collaborator contract. -/
def envC1 : Env :=
  { dec := fun i f p _ =>
      if i = 0 then
        { produced := List.take f [7, 8], consumed := min 2 p.length,
          status := Status.ok }
      else { produced := [], consumed := 0, status := Status.shortRead },
    rd := fun _ c => ReadResult.bytes (List.replicate (min 2 c) 3),
    wr := fun _ c => min 1 c }

/-- Environment for the clean-exit scenario: the source always supplies one
byte (never end of input, so closed is never set), and the decoder reports
the ok status on its first call. -/
def envC3 : Env :=
  { dec := fun _ _ _ _ => { produced := [], consumed := 0, status := Status.ok },
    rd := fun _ c => ReadResult.bytes (List.replicate (min 1 c) 1),
    wr := fun _ c => c }

/-- Environment for the progress-signal scenario: the decoder's first call
consumes one byte, produces one byte and reports the ok status (the spec's
progress signal: forward progress, neither suspension, no error); the sink
accepts everything. -/
def envC5 : Env :=
  { dec := fun i f p _ =>
      if i = 0 then
        { produced := List.take f [7], consumed := min 1 p.length,
          status := Status.ok }
      else { produced := [], consumed := 0, status := Status.shortRead },
    rd := fun _ c => ReadResult.bytes (List.replicate (min 1 c) 9),
    wr := fun _ c => c }

/-- Environment whose first read fails with EINTR and whose later reads
supply one byte; the decoder reports the ok status at once. -/
def envE : Env :=
  { dec := fun _ _ _ _ => { produced := [], consumed := 0, status := Status.ok },
    rd := fun i c =>
      if i = 0 then ReadResult.err EINTR
      else ReadResult.bytes (List.replicate (min 1 c) 1),
    wr := fun _ c => c }

/-- The final state of the envW run with capacities 2 and 2: the decoder
consumed nothing from a full source buffer, so the pump failed with the
no-progress condition in this state. -/
def stW : PumpState :=
  { src := { data := [1, 1], ri := 0, wi := 2, closed := false },
    dst := { data := [0, 0], ri := 0, wi := 0, closed := false },
    nDec := 1, nRd := 1, nWr := 0, out := [], totalProduced := [],
    decCalls := [(0, 0)], rdOffers := [(0, 2)],
    statuses := [Status.shortRead] }

/-- The final state of the envC3 run with capacities 4 and 4: the pump
returned success after one decoder call, with the closed flag never set. -/
def stC3 : PumpState :=
  { src := { data := [1, 0, 0, 0], ri := 0, wi := 1, closed := false },
    dst := { data := [0, 0, 0, 0], ri := 0, wi := 0, closed := false },
    nDec := 1, nRd := 1, nWr := 0, out := [], totalProduced := [],
    decCalls := [(0, 0)], rdOffers := [(0, 4)], statuses := [Status.ok] }

/-- A small concrete buffer with one consumed byte and one pending byte,
used to exercise the compaction lemmas. -/
def bW : IOBuffer := { data := [1, 2, 3], ri := 1, wi := 2, closed := false }

end Zcat

namespace Zcat

/-- Compaction keeps the capacity unchanged. -/
theorem compact_length (b : IOBuffer) (h : BufInv b) :
    b.compact.data.length = b.data.length := by
  obtain ⟨h1, h2⟩ := h
  simp only [IOBuffer.compact, List.length_append, List.length_take,
    List.length_drop]
  omega

/-- Compaction keeps the pending bytes, moved down to offset 0. -/
theorem compact_pending (b : IOBuffer) (h : BufInv b) :
    b.compact.pending = b.pending := by
  obtain ⟨h1, h2⟩ := h
  show (((b.data.drop b.ri).take (b.wi - b.ri) ++
      b.data.drop (b.wi - b.ri)).take (b.wi - b.ri)).drop 0 =
    (b.data.take b.wi).drop b.ri
  rw [List.drop_zero, List.take_left', List.drop_take]
  simp only [List.length_take, List.length_drop]
  omega

/-- The length of the pending region is the cursor distance. -/
theorem pending_length (b : IOBuffer) (h : b.wi ≤ b.data.length) :
    b.pending.length = b.wi - b.ri := by
  simp only [IOBuffer.pending, List.length_drop, List.length_take]
  omega

/-- strnlen never answers more than its cap. -/
theorem strnlen_le (s : List Byte) : ∀ m : Nat, strnlen s m ≤ m := by
  induction s with
  | nil => intro m; simp [strnlen]
  | cons c rest ih =>
    intro m
    cases m with
    | zero => simp [strnlen]
    | succ n =>
      simp only [strnlen]
      split
      · omega
      · have := ih n; omega

/-- The witness environment satisfies all collaborator contracts. -/
theorem envW_wf : Env.Wf envW := by
  refine ⟨fun i f p c => ⟨?_, ?_⟩, fun i c bs h => ?_, fun i c => ?_⟩
  · simp [envW]
  · simp [envW]
  · simp only [envW, ReadResult.bytes.injEq] at h
    simp [← h]
  · simp [envW]

/-- The partial-write environment satisfies all collaborator contracts. -/
theorem envC1_wf : Env.Wf envC1 := by
  refine ⟨fun i f p c => ⟨?_, ?_⟩, fun i c bs h => ?_, fun i c => ?_⟩
  · simp only [envC1]
    split <;> simp
  · simp only [envC1]
    split <;> simp
  · simp only [envC1, ReadResult.bytes.injEq] at h
    simp [← h]
  · simp [envC1]

/-- The clean-exit environment satisfies all collaborator contracts. -/
theorem envC3_wf : Env.Wf envC3 := by
  refine ⟨fun i f p c => ⟨?_, ?_⟩, fun i c bs h => ?_, fun i c => ?_⟩
  · simp [envC3]
  · simp [envC3]
  · simp only [envC3, ReadResult.bytes.injEq] at h
    simp [← h]
  · simp [envC3]

/-- The progress-signal environment satisfies all collaborator contracts. -/
theorem envC5_wf : Env.Wf envC5 := by
  refine ⟨fun i f p c => ⟨?_, ?_⟩, fun i c bs h => ?_, fun i c => ?_⟩
  · simp only [envC5]
    split <;> simp
  · simp only [envC5]
    split <;> simp
  · simp only [envC5, ReadResult.bytes.injEq] at h
    simp [← h]
  · simp [envC5]

/-- The interrupted-read environment satisfies all collaborator contracts. -/
theorem envE_wf : Env.Wf envE := by
  refine ⟨fun i f p c => ⟨?_, ?_⟩, fun i c bs h => ?_, fun i c => ?_⟩
  · simp [envE]
  · simp [envE]
  · simp only [envE] at h
    split at h
    · cases h
    · simp only [ReadResult.bytes.injEq] at h
      simp [← h]
  · simp [envE]

/-- C10: when a fatal condition is reported on the error channel, the bytes
emitted are a truncation of the message to at most 4095 bytes followed by
exactly one appended newline character, whatever the length of the
underlying message. -/
theorem C10_truncated_message :
    ∀ msg : List Byte, ∃ t : List Byte,
      failOutput msg = t ++ [10] ∧ t.length ≤ 4095 ∧
      t = msg.take t.length := by
  intro msg
  refine ⟨msg.take (strnlen msg 4095), rfl, ?_, ?_⟩
  · have h1 : (msg.take (strnlen msg 4095)).length ≤ strnlen msg 4095 := by
      simp only [List.length_take]
      omega
    exact le_trans h1 (strnlen_le msg 4095)
  · rw [List.length_take]
    rcases Nat.le_total (strnlen msg 4095) msg.length with h | h
    · rw [Nat.min_eq_left h]
    · rw [Nat.min_eq_right h, List.take_length, List.take_of_length_le h]

/-- C8: the process result is exactly decode()'s outcome: success prints
nothing and exits 0; any fatal condition emits its (non-empty) description,
produced by fail() from the returned message, and exits non-zero. -/
theorem C8_exit_status :
    ∀ (strerror statusStr : Nat → List Byte) (r : Res),
      (r = Res.ok → mainRun (resMessage strerror statusStr r) = (0, [])) ∧
      (r ≠ Res.ok →
        (mainRun (resMessage strerror statusStr r)).1 ≠ 0 ∧
        (mainRun (resMessage strerror statusStr r)).2 ≠ []) ∧
      (∀ m, resMessage strerror statusStr r = some m →
        (mainRun (resMessage strerror statusStr r)).2 = failOutput m) := by
  intro f g r
  refine ⟨?_, ?_, ?_⟩ <;>
    cases r <;>
    simp [mainRun, resMessage, failStatus, failOutput]

/-- C1 (code bug): with a sink that accepts only one byte per write call, a
run in which the decoder produces the two bytes 7 and 8 and then finishes
ends with the pump reporting success while the sink received only the byte 7:
zcat.c calls write once, ignores its return value and unconditionally marks
the whole pending region consumed, so the unwritten byte is lost instead of
being retried. -/
theorem C1_one_byte_sink_loses_output :
    (decode envC1 3 3 4 4).map
        (fun p => (p.1, p.2.totalProduced, p.2.out)) =
      some (Res.ok, ([7, 8], [7])) := by decide

/-- C3 (counterexample): the pump's main loop can exit without any fatal
error and without the source buffer ever being marked closed — the decoder
reports the ok status on its first call and decode() returns success at once,
with closed still false and need-more-input never reported. -/
theorem C3_clean_exit_without_closed :
    (decode envC3 2 2 4 4).map
        (fun p => (p.1, p.2.src.closed, p.2.statuses)) =
      some (Res.ok, (false, [Status.ok])) := by decide

/-- C5 (counterexample): a decoder step that makes progress (consumes one
byte, produces one byte) and reports the remaining, non-suspension,
non-error status — the spec's progress signal, wuffs's ok — does not make the
inner loop iterate again: with ample fuel the pump terminates after exactly
one decoder call, propagating success. -/
theorem C5_progress_terminates :
    (decode envC5 3 3 4 4).map (fun p => (p.1, p.2.nDec, p.2.statuses)) =
      some (Res.ok, (1, [Status.ok])) := by decide

/-- Fields of the decoder-step state change that are plain record surgery. -/
theorem applyDecStep_fields (st : PumpState) (r : DecStep) :
    (applyDecStep st r).src.ri = st.src.ri + r.consumed ∧
    (applyDecStep st r).src.wi = st.src.wi ∧
    (applyDecStep st r).src.data = st.src.data ∧
    (applyDecStep st r).src.closed = st.src.closed ∧
    (applyDecStep st r).dst.ri = st.dst.ri ∧
    (applyDecStep st r).dst.wi = st.dst.wi + r.produced.length ∧
    (applyDecStep st r).decCalls = st.decCalls ++ [(st.dst.ri, st.dst.wi)] ∧
    (applyDecStep st r).rdOffers = st.rdOffers ∧
    (applyDecStep st r).statuses = st.statuses ++ [r.status] :=
  ⟨rfl, rfl, rfl, rfl, rfl, rfl, rfl, rfl, rfl⟩

/-- The decoder step keeps the destination capacity when it starts from an
empty destination buffer and produces within bounds. -/
theorem applyDecStep_dstLen (st : PumpState) (r : DecStep)
    (h0 : st.dst.wi = 0) (hle : r.produced.length ≤ st.dst.data.length) :
    (applyDecStep st r).dst.data.length = st.dst.data.length := by
  simp only [applyDecStep, h0, List.length_append, List.length_take,
    List.length_drop, Nat.zero_add, List.take_zero, List.length_nil]
  omega

/-- The flush step touches only out, nWr and the destination buffer. -/
theorem flushDst_fields (env : Env) (st : PumpState) :
    (flushDst env st).src = st.src ∧
    (flushDst env st).decCalls = st.decCalls ∧
    (flushDst env st).rdOffers = st.rdOffers ∧
    (flushDst env st).statuses = st.statuses ∧
    (flushDst env st).nDec = st.nDec := by
  unfold flushDst
  split <;> exact ⟨rfl, rfl, rfl, rfl, rfl⟩

/-- After the flush step the destination buffer is empty (the write marks the
whole region consumed and the compaction rewinds both cursors). -/
theorem flushDst_dstEmpty (env : Env) (st : PumpState) (h : st.dst.ri = 0) :
    (flushDst env st).dst.ri = 0 ∧ (flushDst env st).dst.wi = 0 := by
  unfold flushDst
  split
  · exact ⟨rfl, Nat.sub_self _⟩
  · next hne =>
    simp only [ne_eq, Decidable.not_not] at hne
    exact ⟨h, hne⟩

/-- The flush step keeps the destination capacity. -/
theorem flushDst_dstLen (env : Env) (st : PumpState)
    (h : st.dst.wi ≤ st.dst.data.length) :
    (flushDst env st).dst.data.length = st.dst.data.length := by
  unfold flushDst
  split
  · exact compact_length _ ⟨Nat.le_refl _, h⟩
  · rfl

/-- The drain iteration is the flush of the decoder step, and its first
component is the decoder status. -/
theorem drainIter_eq (env : Env) (st : PumpState) :
    drainIter env st =
      ((env.dec st.nDec (st.dst.data.length - st.dst.wi) st.src.pending
          st.src.closed).status,
       flushDst env (applyDecStep st
          (env.dec st.nDec (st.dst.data.length - st.dst.wi) st.src.pending
            st.src.closed))) := rfl

/-- One drain iteration appends exactly its status to the status record. -/
theorem drainIter_statuses (env : Env) (st : PumpState) :
    (drainIter env st).2.statuses = st.statuses ++ [(drainIter env st).1] := by
  rw [drainIter_eq]
  exact ((flushDst_fields env _).2.2.2.1).trans (applyDecStep_fields st _).2.2.2.2.2.2.2.2

/-- Invariant preservation for one decode-and-flush step, with an abstract
decoder answer that respects the contract bounds. -/
theorem stepFlush_inv (env : Env) (scap dcap : Nat) (st : PumpState)
    (r : DecStep) (hp : r.produced.length ≤ dcap)
    (hc : r.consumed ≤ st.src.wi - st.src.ri) (h : InvP scap dcap st) :
    InvP scap dcap (flushDst env (applyDecStep st r)) := by
  obtain ⟨h1, h2, h3, h4, h5, h6, h7, h8⟩ := h
  obtain ⟨ha1, ha2, ha3, ha4, ha5, ha6, ha7, ha8, ha9⟩ :=
    applyDecStep_fields st r
  have hlen : (applyDecStep st r).dst.data.length = dcap := by
    rw [applyDecStep_dstLen st r h6 (by omega)]
    exact h2
  have hwile : (applyDecStep st r).dst.wi ≤
      (applyDecStep st r).dst.data.length := by
    rw [ha6, hlen, h6]
    omega
  obtain ⟨hf1, hf2, hf3, hf4, hf5⟩ := flushDst_fields env (applyDecStep st r)
  obtain ⟨he1, he2⟩ := flushDst_dstEmpty env (applyDecStep st r)
    (by rw [ha5]; exact h5)
  refine ⟨?_, ?_, ?_, ?_, he1, he2, ?_, ?_⟩
  · rw [hf1, ha3]
    exact h1
  · rw [flushDst_dstLen env _ hwile]
    exact hlen
  · rw [hf1, ha1, ha2]
    omega
  · rw [hf1, ha2]
    exact h4
  · rw [hf2, ha7, h5, h6]
    intro p hp2
    rcases List.mem_append.mp hp2 with hp2 | hp2
    · exact h7 p hp2
    · simpa using hp2
  · rw [hf3, ha8]
    exact h8

/-- One drain iteration preserves the loop-head invariant under the
collaborator contracts. -/
theorem drainIter_inv (env : Env) (scap dcap : Nat) (st : PumpState)
    (hwf : Env.Wf env) (h : InvP scap dcap st) :
    InvP scap dcap (drainIter env st).2 := by
  have hwf1 := hwf.1 st.nDec (st.dst.data.length - st.dst.wi) st.src.pending
    st.src.closed
  have e1 : st.dst.data.length - st.dst.wi = dcap := by
    rw [h.dstLen, h.dstWi]
    omega
  have e2 : st.src.pending.length = st.src.wi - st.src.ri :=
    pending_length st.src (by rw [h.srcLen]; exact h.srcWiCap)
  rw [e1, e2] at hwf1
  rw [drainIter_eq]
  rw [e1]
  exact stepFlush_inv env scap dcap st _ hwf1.1 hwf1.2 h

/-- Recording a read offer preserves the loop-head invariant. -/
theorem recordOffer_inv (scap dcap : Nat) (st : PumpState)
    (h : InvP scap dcap st) : InvP scap dcap (recordOffer st) := by
  obtain ⟨h1, h2, h3, h4, h5, h6, h7, h8⟩ := h
  refine ⟨h1, h2, h3, h4, h5, h6, h7, ?_⟩
  intro q hq
  rcases List.mem_append.mp hq with hq | hq
  · exact h8 q hq
  · have : q = (st.src.wi, st.src.data.length - st.src.wi) := by simpa using hq
    subst this
    exact ⟨h4, by rw [h1]⟩

/-- A successful refill within the offered free region preserves the
loop-head invariant. -/
theorem applyRefill_inv (scap dcap : Nat) (st : PumpState) (bs : List Byte)
    (h : InvP scap dcap st) (hb : bs.length ≤ scap - st.src.wi) :
    InvP scap dcap (applyRefill st bs) := by
  obtain ⟨h1, h2, h3, h4, h5, h6, h7, h8⟩ := h
  refine ⟨?_, h2, ?_, ?_, h5, h6, h7, h8⟩
  · simp only [applyRefill, List.length_append, List.length_take,
      List.length_drop, h1]
    omega
  · simp only [applyRefill]
    omega
  · simp only [applyRefill]
    omega

/-- Compacting the source buffer preserves the loop-head invariant. -/
theorem compactSrc_inv (scap dcap : Nat) (st : PumpState)
    (h : InvP scap dcap st) :
    InvP scap dcap { st with src := st.src.compact } := by
  obtain ⟨h1, h2, h3, h4, h5, h6, h7, h8⟩ := h
  have hc : st.src.compact.data.length = scap := by
    rw [compact_length st.src ⟨h3, by omega⟩]
    exact h1
  refine ⟨hc, h2, ?_, ?_, h5, h6, h7, h8⟩
  · show (0 : Nat) ≤ st.src.wi - st.src.ri
    omega
  · show st.src.wi - st.src.ri ≤ scap
    omega

/-- The inner drain loop preserves the loop-head invariant. -/
theorem innerLoop_inv (env : Env) (scap dcap : Nat) (hwf : Env.Wf env) :
    ∀ (g : Nat) (st : PumpState) (o : InnerOut), InvP scap dcap st →
      innerLoop env g st = some o → InvP scap dcap o.state := by
  intro g
  induction g with
  | zero =>
    intro st o h hl
    simp [innerLoop] at hl
  | succ n ih =>
    intro st o h hl
    have hinv := drainIter_inv env scap dcap st hwf h
    simp only [innerLoop] at hl
    cases hs : (drainIter env st).1 <;> rw [hs] at hl
    · cases hl
      exact hinv
    · cases hl
      exact hinv
    · exact ih _ o hinv hl
    · cases hl
      exact hinv

/-- The initial pump state satisfies the loop-head invariant. -/
theorem initState_inv (scap dcap : Nat) :
    InvP scap dcap (initState scap dcap) := by
  refine ⟨?_, ?_, ?_, ?_, rfl, rfl, ?_, ?_⟩
  · simp [initState, IOBuffer.init]
  · simp [initState, IOBuffer.init]
  · exact Nat.le_refl 0
  · exact Nat.zero_le scap
  · intro p hp
    simp [initState] at hp
  · intro q hq
    simp [initState] at hq

/-- The outer refill loop preserves the loop-head invariant. -/
theorem outerLoop_inv (env : Env) (scap dcap : Nat) (hwf : Env.Wf env) :
    ∀ (f g : Nat) (st : PumpState) (r : Res) (stF : PumpState),
      InvP scap dcap st → outerLoop env f g st = some (r, stF) →
      InvP scap dcap stF := by
  intro f
  induction f with
  | zero =>
    intro g st r stF h hl
    simp [outerLoop] at hl
  | succ n ih =>
    intro g st r stF h hl
    simp only [outerLoop] at hl
    split at hl
    next e heq =>
      split at hl
      next he =>
        exact ih g _ r stF (recordOffer_inv scap dcap st h) hl
      next he =>
        simp only [Option.some.injEq, Prod.mk.injEq] at hl
        rw [← hl.2]
        exact recordOffer_inv scap dcap st h
    next bs heq =>
      have hb : bs.length ≤ scap - st.src.wi := by
        have hw := hwf.2.1 st.nRd (st.src.data.length - st.src.wi) bs heq
        rw [h.srcLen] at hw
        exact hw
      have hr1 : InvP scap dcap (applyRefill (recordOffer st) bs) :=
        applyRefill_inv scap dcap (recordOffer st) bs
          (recordOffer_inv scap dcap st h) hb
      split at hl
      next hin => cases hl
      next r2 st2 hin =>
        simp only [Option.some.injEq, Prod.mk.injEq] at hl
        rw [← hl.2]
        exact innerLoop_inv env scap dcap hwf g _ _ hr1 hin
      next st2 hin =>
        have h2 : InvP scap dcap { st2 with src := st2.src.compact } :=
          compactSrc_inv scap dcap st2
            (innerLoop_inv env scap dcap hwf g _ _ hr1 hin)
        split at hl
        next hfull =>
          simp only [Option.some.injEq, Prod.mk.injEq] at hl
          rw [← hl.2]
          exact h2
        next hfull =>
          exact ih g _ r stF h2 hl

/-- The inner loop returns from decode() only with the ok result or with a
decoder error, never with a read error or the no-progress result. -/
theorem innerLoop_ret_shape (env : Env) :
    ∀ (g : Nat) (st : PumpState) (r : Res) (st2 : PumpState),
      innerLoop env g st = some (InnerOut.ret r st2) →
      r = Res.ok ∨ ∃ k, r = Res.decErr k := by
  intro g
  induction g with
  | zero => intro st r st2 hl; simp [innerLoop] at hl
  | succ n ih =>
    intro st r st2 hl
    simp only [innerLoop] at hl
    cases hs : (drainIter env st).1 <;> rw [hs] at hl
    · simp only [Option.some.injEq, InnerOut.ret.injEq] at hl
      exact Or.inl hl.1.symm
    · simp at hl
    · exact ih _ r st2 hl
    · simp only [Option.some.injEq, InnerOut.ret.injEq] at hl
      exact Or.inr ⟨_, hl.1.symm⟩

/-- When the inner loop returns, the result matches the decoder's last
recorded status: ok for the ok result, the error kind for a decoder error. -/
theorem innerLoop_ret_status (env : Env) :
    ∀ (g : Nat) (st : PumpState) (r : Res) (st2 : PumpState),
      innerLoop env g st = some (InnerOut.ret r st2) →
      (r = Res.ok → st2.statuses.getLast? = some Status.ok) ∧
      (∀ k, r = Res.decErr k →
        st2.statuses.getLast? = some (Status.error k)) := by
  intro g
  induction g with
  | zero => intro st r st2 hl; simp [innerLoop] at hl
  | succ n ih =>
    intro st r st2 hl
    have hst := drainIter_statuses env st
    simp only [innerLoop] at hl
    cases hs : (drainIter env st).1 <;> rw [hs] at hl
    · simp only [Option.some.injEq, InnerOut.ret.injEq] at hl
      obtain ⟨h1, h2⟩ := hl
      constructor
      · intro _
        rw [← h2, hst, hs]
        exact List.getLast?_concat _
      · intro k hk
        rw [← h1] at hk
        cases hk
    · simp at hl
    · exact ih _ r st2 hl
    · simp only [Option.some.injEq, InnerOut.ret.injEq] at hl
      obtain ⟨h1, h2⟩ := hl
      constructor
      · intro hk
        rw [← h1] at hk
        cases hk
      · intro k hk
        rw [← h1] at hk
        cases hk
        rw [← h2, hst, hs]
        exact List.getLast?_concat _

/-- One drain iteration preserves the destination-side invariant without any
contract assumption on the collaborators. -/
theorem drainIter_dinv (env : Env) (st : PumpState) (h : DInv st) :
    DInv (drainIter env st).2 := by
  obtain ⟨h1, h2, h3⟩ := h
  rw [drainIter_eq]
  generalize env.dec st.nDec (st.dst.data.length - st.dst.wi) st.src.pending
    st.src.closed = r
  obtain ⟨ha1, ha2, ha3, ha4, ha5, ha6, ha7, ha8, ha9⟩ :=
    applyDecStep_fields st r
  obtain ⟨hf1, hf2, hf3, hf4, hf5⟩ := flushDst_fields env (applyDecStep st r)
  obtain ⟨he1, he2⟩ := flushDst_dstEmpty env (applyDecStep st r)
    (by rw [ha5]; exact h1)
  refine ⟨he1, he2, ?_⟩
  rw [hf2, ha7, h1, h2]
  intro p hp
  rcases List.mem_append.mp hp with hp | hp
  · exact h3 p hp
  · simpa using hp

/-- The inner loop preserves the destination-side invariant. -/
theorem innerLoop_dinv (env : Env) :
    ∀ (g : Nat) (st : PumpState) (o : InnerOut), DInv st →
      innerLoop env g st = some o → DInv o.state := by
  intro g
  induction g with
  | zero => intro st o h hl; simp [innerLoop] at hl
  | succ n ih =>
    intro st o h hl
    have hinv := drainIter_dinv env st h
    simp only [innerLoop] at hl
    cases hs : (drainIter env st).1 <;> rw [hs] at hl
    · cases hl
      exact hinv
    · cases hl
      exact hinv
    · exact ih _ o hinv hl
    · cases hl
      exact hinv

/-- The outer loop preserves the destination-side invariant. -/
theorem outerLoop_dinv (env : Env) :
    ∀ (f g : Nat) (st : PumpState) (r : Res) (stF : PumpState), DInv st →
      outerLoop env f g st = some (r, stF) → DInv stF := by
  intro f
  induction f with
  | zero => intro g st r stF h hl; simp [outerLoop] at hl
  | succ n ih =>
    intro g st r stF h hl
    simp only [outerLoop] at hl
    split at hl
    next e heq =>
      split at hl
      next he => exact ih g (recordOffer st) r stF h hl
      next he =>
        simp only [Option.some.injEq, Prod.mk.injEq] at hl
        rw [← hl.2]
        exact h
    next bs heq =>
      split at hl
      next hin => cases hl
      next r2 st2 hin =>
        simp only [Option.some.injEq, Prod.mk.injEq] at hl
        rw [← hl.2]
        exact innerLoop_dinv env g (applyRefill (recordOffer st) bs)
          (InnerOut.ret r2 st2) h hin
      next st2 hin =>
        have h2 : DInv { st2 with src := st2.src.compact } :=
          innerLoop_dinv env g (applyRefill (recordOffer st) bs)
            (InnerOut.broke st2) h hin
        split at hl
        next hfull =>
          simp only [Option.some.injEq, Prod.mk.injEq] at hl
          rw [← hl.2]
          exact h2
        next hfull =>
          exact ih g _ r stF h2 hl

/-- C2: after the inner loop breaks and the source buffer is compacted, a
completely full compacted buffer — write cursor at capacity, read cursor at
0, i.e. the decoder could not consume even one byte — makes the pump return
the fatal no-progress result at once; and the no-progress result arises only
with the final source buffer in exactly that state. -/
theorem C2_no_progress_check :
    (∀ (env : Env) (f g : Nat) (st : PumpState) (r : Res) (stF : PumpState),
       outerLoop env f g st = some (r, stF) → r = Res.noProgress →
       stF.src.ri = 0 ∧ stF.src.wi = stF.src.data.length) ∧
    (∀ (env : Env) (f g : Nat) (st : PumpState) (bs : List Byte)
       (st2 : PumpState),
       env.rd st.nRd (st.src.data.length - st.src.wi) = ReadResult.bytes bs →
       innerLoop env g (applyRefill (recordOffer st) bs) =
         some (InnerOut.broke st2) →
       st2.src.compact.wi = st2.src.compact.data.length →
       outerLoop env (f + 1) g st =
         some (Res.noProgress, { st2 with src := st2.src.compact })) := by
  constructor
  · intro env f
    induction f with
    | zero => intro g st r stF hl hnp; simp [outerLoop] at hl
    | succ n ih =>
      intro g st r stF hl hnp
      simp only [outerLoop] at hl
      split at hl
      next e heq =>
        split at hl
        next he => exact ih g _ r stF hl hnp
        next he =>
          simp only [Option.some.injEq, Prod.mk.injEq] at hl
          rw [← hl.1] at hnp
          cases hnp
      next bs heq =>
        split at hl
        next hin => cases hl
        next r2 st2 hin =>
          simp only [Option.some.injEq, Prod.mk.injEq] at hl
          rw [← hl.1] at hnp
          rcases innerLoop_ret_shape env g _ r2 st2 hin with hsh | ⟨k, hsh⟩ <;>
            rw [hsh] at hnp <;> cases hnp
        next st2 hin =>
          split at hl
          next hfull =>
            simp only [Option.some.injEq, Prod.mk.injEq] at hl
            rw [← hl.2]
            exact ⟨rfl, hfull⟩
          next hfull => exact ih g _ r stF hl hnp
  · intro env f g st bs st2 hrd hin hfull
    simp only [outerLoop, hrd, hin]
    rw [if_pos hfull]

/-- C3 (amended): the pump's main loop exits only by propagating a result —
overall success arises exactly when the decoder's last reported status is the
ok status, a decoder fatal error is propagated with its kind unmodified as
the last reported status, and the remaining exits are the fatal read and
no-progress results; the closed flag is not what terminates the loop. -/
theorem C3_exit_reasons :
    ∀ (env : Env) (f g : Nat) (st : PumpState) (r : Res) (stF : PumpState),
      outerLoop env f g st = some (r, stF) →
      (r = Res.ok → stF.statuses.getLast? = some Status.ok) ∧
      (∀ k, r = Res.decErr k →
        stF.statuses.getLast? = some (Status.error k)) := by
  intro env f
  induction f with
  | zero => intro g st r stF hl; simp [outerLoop] at hl
  | succ n ih =>
    intro g st r stF hl
    simp only [outerLoop] at hl
    split at hl
    next e heq =>
      split at hl
      next he => exact ih g _ r stF hl
      next he =>
        simp only [Option.some.injEq, Prod.mk.injEq] at hl
        constructor
        · intro hk
          rw [← hl.1] at hk
          cases hk
        · intro k hk
          rw [← hl.1] at hk
          cases hk
    next bs heq =>
      split at hl
      next hin => cases hl
      next r2 st2 hin =>
        simp only [Option.some.injEq, Prod.mk.injEq] at hl
        rw [← hl.1, ← hl.2]
        exact innerLoop_ret_status env g _ r2 st2 hin
      next st2 hin =>
        split at hl
        next hfull =>
          simp only [Option.some.injEq, Prod.mk.injEq] at hl
          constructor
          · intro hk
            rw [← hl.1] at hk
            cases hk
          · intro k hk
            rw [← hl.1] at hk
            cases hk
        next hfull => exact ih g _ r stF hl

/-- C4: the refill read dispatch of the pump: an EINTR failure makes the very
next action a retry of the read, consuming no error; a surfaced read error
can never be EINTR; a successful read of bs advances the source write cursor
by exactly the byte count; a non-empty read leaves the closed flag alone
while a zero-byte read sets it (and, being handled in the successful-read
arm, is not an error); any other errno terminates the pump at once with that
errno as the surfaced result. -/
theorem C4_read_dispatch :
    (∀ (env : Env) (f g : Nat) (st : PumpState),
       env.rd st.nRd (st.src.data.length - st.src.wi) =
         ReadResult.err EINTR →
       outerLoop env (f + 1) g st = outerLoop env f g (recordOffer st)) ∧
    (∀ (env : Env) (f g : Nat) (st : PumpState) (r : Res) (stF : PumpState)
       (e : Nat), outerLoop env f g st = some (r, stF) → r = Res.readErr e →
       e ≠ EINTR) ∧
    (∀ (st : PumpState) (bs : List Byte),
       (applyRefill st bs).src.wi = st.src.wi + bs.length) ∧
    (∀ (st : PumpState) (bs : List Byte), bs ≠ [] →
       (applyRefill st bs).src.closed = st.src.closed) ∧
    (∀ st : PumpState, (applyRefill st []).src.closed = true) ∧
    (∀ (env : Env) (f g : Nat) (st : PumpState) (e : Nat), e ≠ EINTR →
       env.rd st.nRd (st.src.data.length - st.src.wi) = ReadResult.err e →
       outerLoop env (f + 1) g st =
         some (Res.readErr e, recordOffer st)) := by
  refine ⟨?_, ?_, ?_, ?_, ?_, ?_⟩
  · intro env f g st hrd
    simp only [outerLoop, hrd]
    simp
  · intro env f
    induction f with
    | zero => intro g st r stF e hl he; simp [outerLoop] at hl
    | succ n ih =>
      intro g st r stF e hl he
      simp only [outerLoop] at hl
      split at hl
      next e2 heq =>
        split at hl
        next h2 => exact ih g _ r stF e hl he
        next h2 =>
          simp only [Option.some.injEq, Prod.mk.injEq] at hl
          rw [← hl.1] at he
          cases he
          exact h2
      next bs heq =>
        split at hl
        next hin => cases hl
        next r2 st2 hin =>
          simp only [Option.some.injEq, Prod.mk.injEq] at hl
          rw [← hl.1] at he
          rcases innerLoop_ret_shape env g _ r2 st2 hin with hsh | ⟨k, hsh⟩ <;>
            rw [hsh] at he <;> cases he
        next st2 hin =>
          split at hl
          next hfull =>
            simp only [Option.some.injEq, Prod.mk.injEq] at hl
            rw [← hl.1] at he
            cases he
          next hfull => exact ih g _ r stF e hl he
  · intro st bs
    rfl
  · intro st bs hbs
    show (if bs.length = 0 then true else st.src.closed) = st.src.closed
    rw [if_neg (by simpa using hbs)]
  · intro st
    rfl
  · intro env f g st e he hrd
    simp only [outerLoop, hrd]
    rw [if_neg he]

/-- C5 (amended): the inner loop's dispatch on the decoder status:
need-more-input (short read) breaks out of the inner loop; output-full
(short write) loops again immediately; a fatal error terminates decode()
with its kind propagated unmodified; and the remaining status — ok, the
spec's progress signal — likewise terminates decode(), propagated as overall
success, instead of looping again. A returned inner-loop outcome is the
pump's result verbatim. -/
theorem C5_status_dispatch :
    (∀ (env : Env) (fuel : Nat) (st : PumpState),
       (drainIter env st).1 = Status.shortRead →
       innerLoop env (fuel + 1) st =
         some (InnerOut.broke (drainIter env st).2)) ∧
    (∀ (env : Env) (fuel : Nat) (st : PumpState),
       (drainIter env st).1 = Status.shortWrite →
       innerLoop env (fuel + 1) st = innerLoop env fuel (drainIter env st).2) ∧
    (∀ (env : Env) (fuel : Nat) (st : PumpState),
       (drainIter env st).1 = Status.ok →
       innerLoop env (fuel + 1) st =
         some (InnerOut.ret Res.ok (drainIter env st).2)) ∧
    (∀ (env : Env) (fuel : Nat) (st : PumpState) (k : Nat),
       (drainIter env st).1 = Status.error k →
       innerLoop env (fuel + 1) st =
         some (InnerOut.ret (Res.decErr k) (drainIter env st).2)) ∧
    (∀ (env : Env) (f g : Nat) (st : PumpState) (bs : List Byte) (r : Res)
       (st2 : PumpState),
       env.rd st.nRd (st.src.data.length - st.src.wi) = ReadResult.bytes bs →
       innerLoop env g (applyRefill (recordOffer st) bs) =
         some (InnerOut.ret r st2) →
       outerLoop env (f + 1) g st = some (r, st2)) := by
  refine ⟨?_, ?_, ?_, ?_, ?_⟩
  · intro env fuel st hs
    simp only [innerLoop, hs]
  · intro env fuel st hs
    simp only [innerLoop, hs]
  · intro env fuel st hs
    simp only [innerLoop, hs]
  · intro env fuel st k hs
    simp only [innerLoop, hs]
  · intro env f g st bs r st2 hrd hin
    simp only [outerLoop, hrd, hin]

/-- C6: on every invocation of the decoder step during a run from the fresh
state, the destination buffer had both cursors at 0 (it was empty with a
maximal free region), and the post-flush reset — read cursor set to the
write cursor, then compaction — leaves both destination cursors at 0. -/
theorem C6_dst_empty_at_decode :
    (∀ (env : Env) (f g scap dcap : Nat) (r : Res) (stF : PumpState),
       outerLoop env f g (initState scap dcap) = some (r, stF) →
       ∀ p ∈ stF.decCalls, p = ((0 : Nat), (0 : Nat))) ∧
    (∀ b : IOBuffer, (IOBuffer.compact { b with ri := b.wi }).ri = 0 ∧
       (IOBuffer.compact { b with ri := b.wi }).wi = 0) := by
  constructor
  · intro env f g scap dcap r stF hl
    refine (outerLoop_dinv env f g _ r stF ⟨rfl, rfl, ?_⟩ hl).2.2
    intro p hp
    simp [initState] at hp
  · intro b
    exact ⟨rfl, Nat.sub_self _⟩

/-- C7: the cursor invariant 0 ≤ ri ≤ wi ≤ capacity holds for both buffers
initially, is preserved by the decoder-and-flush step under the section 6.1
contract, by an in-contract refill, and across whole runs of the pump; and
compaction loses and reorders no pending byte — it moves the pending region
to offset 0, zeroes the read cursor, lowers the write cursor by the old read
cursor and keeps the capacity. -/
theorem C7_cursor_invariant :
    (∀ b : IOBuffer, BufInv b →
       BufInv b.compact ∧ b.compact.data.length = b.data.length ∧
       b.compact.pending = b.pending ∧ b.compact.ri = 0 ∧
       b.compact.wi = b.wi - b.ri) ∧
    (∀ scap dcap : Nat,
       BufInv (initState scap dcap).src ∧ BufInv (initState scap dcap).dst) ∧
    (∀ (env : Env) (scap dcap : Nat) (st : PumpState), Env.Wf env →
       InvP scap dcap st →
       BufInv (drainIter env st).2.src ∧ BufInv (drainIter env st).2.dst) ∧
    (∀ (st : PumpState) (bs : List Byte), BufInv st.src →
       bs.length ≤ st.src.data.length - st.src.wi →
       BufInv (applyRefill st bs).src ∧
       (applyRefill st bs).src.data.length = st.src.data.length) ∧
    (∀ (env : Env) (f g scap dcap : Nat) (r : Res) (stF : PumpState),
       Env.Wf env → outerLoop env f g (initState scap dcap) = some (r, stF) →
       BufInv stF.src ∧ BufInv stF.dst) := by
  refine ⟨?_, ?_, ?_, ?_, ?_⟩
  · intro b hb
    have hl := compact_length b hb
    obtain ⟨hb1, hb2⟩ := hb
    refine ⟨⟨Nat.zero_le _, ?_⟩, hl, compact_pending b ⟨hb1, hb2⟩, rfl, rfl⟩
    show b.wi - b.ri ≤ b.compact.data.length
    omega
  · intro scap dcap
    constructor
    · exact ⟨Nat.le_refl 0, Nat.zero_le _⟩
    · exact ⟨Nat.le_refl 0, Nat.zero_le _⟩
  · intro env scap dcap st hwf h
    have hi := drainIter_inv env scap dcap st hwf h
    constructor
    · exact ⟨hi.srcRiWi, by rw [hi.srcLen]; exact hi.srcWiCap⟩
    · refine ⟨?_, ?_⟩
      · rw [hi.dstRi, hi.dstWi]
      · rw [hi.dstWi]
        exact Nat.zero_le _
  · intro st bs hb hbs
    obtain ⟨hb1, hb2⟩ := hb
    constructor
    · constructor
      · show st.src.ri ≤ st.src.wi + bs.length
        omega
      · show st.src.wi + bs.length ≤
          (st.src.data.take st.src.wi ++ bs ++
            st.src.data.drop (st.src.wi + bs.length)).length
        simp only [List.length_append, List.length_take, List.length_drop]
        omega
    · show (st.src.data.take st.src.wi ++ bs ++
          st.src.data.drop (st.src.wi + bs.length)).length =
        st.src.data.length
      simp only [List.length_append, List.length_take, List.length_drop]
      omega
  · intro env f g scap dcap r stF hwf hl
    have hi := outerLoop_inv env scap dcap hwf f g _ r stF
      (initState_inv scap dcap) hl
    constructor
    · exact ⟨hi.srcRiWi, by rw [hi.srcLen]; exact hi.srcWiCap⟩
    · refine ⟨?_, ?_⟩
      · rw [hi.dstRi, hi.dstWi]
      · rw [hi.dstWi]
        exact Nat.zero_le _

/-- C9: over any run from the fresh state, under the collaborator contracts,
every refill read was offered exactly the source buffer's free region — the
recorded offer at write cursor w has length capacity − w with w never past
the capacity — and the source buffer's backing array keeps its exact
capacity, so no read ever writes outside the buffer's bounds. -/
theorem C9_read_offers :
    ∀ (env : Env) (f g scap dcap : Nat) (r : Res) (stF : PumpState),
      Env.Wf env → outerLoop env f g (initState scap dcap) = some (r, stF) →
      stF.src.data.length = scap ∧ stF.src.wi ≤ scap ∧
      ∀ q ∈ stF.rdOffers, q.1 ≤ scap ∧ q.2 = scap - q.1 := by
  intro env f g scap dcap r stF hwf hl
  have hi := outerLoop_inv env scap dcap hwf f g _ r stF
    (initState_inv scap dcap) hl
  exact ⟨hi.srcLen, hi.srcWiCap, hi.rdOffersOk⟩

/-- Witness for C2: the envW run ends in the no-progress state stW, and the
theorem yields its characterization at that concrete input. -/
theorem C2_witness : stW.src.ri = 0 ∧ stW.src.wi = stW.src.data.length :=
  C2_no_progress_check.1 envW 1 1 (initState 2 2) Res.noProgress stW
    (by decide) rfl

/-- Witness for C3: the envC3 run ends in stC3 with the ok result, and the
theorem yields that its last status is ok. -/
theorem C3_witness : stC3.statuses.getLast? = some Status.ok :=
  (C3_exit_reasons envC3 2 2 (initState 4 4) Res.ok stC3 (by decide)).1 rfl

/-- Witness for C4: envE's first read fails with EINTR, and the theorem
yields the immediate-retry equation at that concrete input. -/
theorem C4_witness :
    outerLoop envE 2 1 (initState 2 2) =
      outerLoop envE 1 1 (recordOffer (initState 2 2)) :=
  C4_read_dispatch.1 envE 1 1 (initState 2 2) (by decide)

/-- Witness for C5: envW's first drain iteration reports short read, and the
theorem yields the inner-loop break at that concrete input. -/
theorem C5_witness :
    innerLoop envW 1 (initState 2 2) =
      some (InnerOut.broke (drainIter envW (initState 2 2)).2) :=
  C5_status_dispatch.1 envW 0 (initState 2 2) (by decide)

/-- Witness for C6: the recorded decoder call of the envW run saw empty
cursors, and the post-flush reset of the concrete buffer bW empties it. -/
theorem C6_witness :
    ((0 : Nat), (0 : Nat)) = ((0 : Nat), (0 : Nat)) ∧
    (IOBuffer.compact { bW with ri := bW.wi }).ri = 0 ∧
    (IOBuffer.compact { bW with ri := bW.wi }).wi = 0 :=
  ⟨C6_dst_empty_at_decode.1 envW 1 1 2 2 Res.noProgress stW (by decide)
      ((0 : Nat), (0 : Nat)) (by decide),
   C6_dst_empty_at_decode.2 bW⟩

/-- Witness for C7: the compaction conjunct at the concrete buffer bW and the
whole-run conjunct at the concrete envW run. -/
theorem C7_witness :
    (BufInv bW.compact ∧ bW.compact.data.length = bW.data.length ∧
      bW.compact.pending = bW.pending ∧ bW.compact.ri = 0 ∧
      bW.compact.wi = bW.wi - bW.ri) ∧
    (BufInv stW.src ∧ BufInv stW.dst) :=
  ⟨C7_cursor_invariant.1 bW ⟨by decide, by decide⟩,
   C7_cursor_invariant.2.2.2.2 envW 1 1 2 2 Res.noProgress stW envW_wf
     (by decide)⟩

/-- Witness for C8: a concrete failing result yields a non-zero status and a
non-empty error emission. -/
theorem C8_witness :
    (mainRun (resMessage (fun _ => [65]) (fun _ => [66]) (Res.readErr 5))).1
        ≠ 0 ∧
    (mainRun (resMessage (fun _ => [65]) (fun _ => [66]) (Res.readErr 5))).2
        ≠ [] :=
  (C8_exit_status (fun _ => [65]) (fun _ => [66]) (Res.readErr 5)).2.1
    (by decide)

/-- Witness for C9: the envW run keeps the source capacity and an in-bounds
write cursor. -/
theorem C9_witness : stW.src.data.length = 2 ∧ stW.src.wi ≤ 2 :=
  ⟨(C9_read_offers envW 1 1 2 2 Res.noProgress stW envW_wf (by decide)).1,
   (C9_read_offers envW 1 1 2 2 Res.noProgress stW envW_wf (by decide)).2.1⟩

end Zcat
